import Mathlib

/-!
Shallow embedding of the Ignite Video bulk uploader core (src/src/App.tsx):
the per-item upload/poll state machine, the per-item poll-timer registry,
the upload orchestrator, and the axios error rendering.

Modelling conventions:
* JavaScript strings are `String`; absent/undefined string fields are
  `Option String`, and the empty string is the only falsy string.
* The browser timer registry (`pollTimersRef`, a `Map<string, number>`) is an
  association list `List (String × Nat)`; `window.setInterval` hands out fresh
  positive handles via a `nextTimer` counter, and the set of handles whose
  interval is still scheduled is the list `live`.
* Asynchronous continuations (the body of `run` inside `pollVideoStatus`, the
  per-item pipeline of `startUploads`) are modelled as explicit state
  transformers; each network outcome is an explicit input.
-/

/-- The `UploadStage` union type of App.tsx. -/
inductive UploadStage where
  | pending
  | creating
  | uploading
  | uploaded
  | polling
  | done
  | error
deriving DecidableEq, Repr

/-- The `UploadItem` record of App.tsx (the `file` payload itself is not
observable by any claim and is omitted; its name survives as `title`). -/
structure UploadItem where
  id : String
  title : String
  progressPercent : Nat
  stage : UploadStage
  statusText : String
  videoId : Option String
  errorMessage : Option String
deriving DecidableEq, Repr

/-- Response body of `GET /videos/{videoId}` as read by `pollVideoStatus`:
`data.status` and `data.encodingStatus`, each possibly absent. -/
structure StatusResponse where
  status : Option String
  encodingStatus : Option String
deriving DecidableEq, Repr

/-- An axios upload progress event: `loaded` bytes sent so far and `total`,
which is absent when the total size is unknown. -/
structure ProgressEvent where
  loaded : Nat
  total : Option Nat
deriving DecidableEq, Repr

/-- The structured body of a non-success HTTP response, as consumed by
`extractAxiosError`: optional `message` and `error` fields plus the
`JSON.stringify` rendering of the whole body (the empty string standing for a
falsy stringification). -/
structure ResponseData where
  message : Option String
  error : Option String
  serialized : String
deriving DecidableEq, Repr

/-- Model of an `AxiosError`: `response` is present (with HTTP status and
possibly-falsy body) for a non-success response, otherwise `request` tells
whether the request was sent at all, and `message` is the error's own
message (empty standing for falsy). -/
structure AxiosErrorModel where
  response : Option (Nat × Option ResponseData)
  request : Bool
  message : String
deriving DecidableEq, Repr

/-- Outcome of one network call: success with a value, or a thrown
`AxiosError`. -/
inductive TransportResult (α : Type) where
  | ok (a : α)
  | err (e : AxiosErrorModel)
deriving DecidableEq, Repr

/-- Everything the network decides for one item's pipeline run: the result of
`createVideo` (videoId and signedUrl on success), the progress events fired
during `uploadToSignedUrl`, and the result of the upload itself. -/
structure Outcome where
  createRes : TransportResult (String × String)
  progress : List ProgressEvent
  uploadRes : TransportResult Unit
deriving DecidableEq, Repr

/-- Outcome of one status poll: a parsed response body, or a thrown error. -/
inductive PollResult where
  | ok (resp : StatusResponse)
  | fail (e : AxiosErrorModel)
deriving DecidableEq, Repr

/-- The component state of App.tsx that the claims are about: `items`,
`isUploading`, the token (used by `canUpload`), the timer registry
`pollTimersRef.current` (`timers`), the set of still-scheduled interval
handles (`live`) and the fresh-handle counter (`nextTimer`).  Display-only
state (files, warning, visibility, apiBase) is omitted. -/
structure AppState where
  token : String
  items : List UploadItem
  timers : List (String × Nat)
  live : List Nat
  nextTimer : Nat
  isUploading : Bool
deriving DecidableEq, Repr

/-- JavaScript `a || b` on a possibly-absent string `a` (absent and empty are
falsy). -/
def jsOrStr (a : Option String) (b : String) : String :=
  match a with
  | some s => if s = "" then b else s
  | none => b

/-- `(data.status || data.encodingStatus || '').toString()` from
`pollVideoStatus`. -/
def rawStatus (r : StatusResponse) : String :=
  jsOrStr r.status (jsOrStr r.encodingStatus "")

/-- JavaScript `s.toLowerCase()` for the ASCII status vocabulary, as a map
over the string's characters (kernel-reducible, unlike `String.toLower`'s
byte-position recursion). -/
def jsToLower (s : String) : String :=
  ⟨s.data.map Char.toLower⟩

/-- `const normalized = status || 'processing'` from `pollVideoStatus`. -/
def normalizeStatus (s : String) : String :=
  if s = "" then "processing" else s

/-- The `doneStatuses` array of `pollVideoStatus`. -/
def doneStatuses : List String :=
  ["encoded", "ready", "finished", "complete", "completed"]

/-- The `errorStatuses` array of `pollVideoStatus`. -/
def errorStatuses : List String :=
  ["failed", "error"]

/-- `extractAxiosError` from App.tsx. -/
def extractAxiosError (error : AxiosErrorModel) : String :=
  match error.response with
  | some (status, data) =>
      let msg :=
        match data with
        | none => "Request failed"
        | some d =>
            jsOrStr d.message
              (jsOrStr d.error
                (if d.serialized = "" then "Request failed" else d.serialized))
      toString status ++ ": " ++ msg
  | none =>
      if error.request then "No response from server"
      else if error.message = "" then "Unknown error" else error.message

/-- `updateItem` from App.tsx: `prev.map((it) => (it.id === id ? updater(it)
: it))`. -/
def updateItem (id : String) (updater : UploadItem → UploadItem)
    (items : List UploadItem) : List UploadItem :=
  items.map (fun it => if it.id = id then updater it else it)

/-- `Math.round((loaded / total) * 100)` over the rationals, as exact natural
arithmetic: `round(100 * loaded / total) = floor((200 * loaded + total) /
(2 * total))` for `total > 0` (JavaScript rounds halves up). -/
def jsRound (loaded total : Nat) : Nat :=
  (200 * loaded + total) / (2 * total)

/-- The `onUploadProgress` handler of `uploadToSignedUrl`, acting on one item:
skip when `evt.total` is falsy (absent or zero), otherwise store the rounded
percentage. -/
def itemProgress (evt : ProgressEvent) (prev : UploadItem) : UploadItem :=
  match evt.total with
  | none => prev
  | some total =>
      if total = 0 then prev
      else { prev with progressPercent := jsRound evt.loaded total }

/-- The `onUploadProgress` handler of `uploadToSignedUrl`, acting on the item
list: `if (!evt.total) return;` then `updateItem(item.id, ...)` with the
rounded percentage. -/
def uploadProgressHandler (itemId : String) (evt : ProgressEvent)
    (items : List UploadItem) : List UploadItem :=
  match evt.total with
  | none => items
  | some total =>
      if total = 0 then items
      else
        updateItem itemId
          (fun prev => { prev with progressPercent := jsRound evt.loaded total })
          items

/-- `pollTimersRef.current.get(k)` on the association-list model of the map. -/
def mapGet (m : List (String × Nat)) (k : String) : Option Nat :=
  (m.find? (fun p => p.1 == k)).map (fun p => p.2)

/-- `pollTimersRef.current.set(k, v)`: replace any binding of `k`, bind `k`
to `v`. -/
def mapSet (m : List (String × Nat)) (k : String) (v : Nat) :
    List (String × Nat) :=
  m.filter (fun p => !(p.1 == k)) ++ [(k, v)]

/-- `pollTimersRef.current.delete(k)`. -/
def mapDelete (m : List (String × Nat)) (k : String) : List (String × Nat) :=
  m.filter (fun p => !(p.1 == k))

/-- `window.clearInterval(t)` on the set of scheduled handles: a no-op when
`t` is not scheduled. -/
def clearIntervalL (live : List Nat) (t : Nat) : List Nat :=
  live.filter (fun x => !(x == t))

/-- Updater of `updateItem` writing a new `statusText` (used by the poll
success path and, with a poll-error annotation, by the poll catch path). -/
def setStatusText (s : String) (prev : UploadItem) : UploadItem :=
  { prev with statusText := s }

/-- Updater of the `done` transition in `pollVideoStatus`. -/
def setDone (prev : UploadItem) : UploadItem :=
  { prev with stage := UploadStage.done }

/-- Updater of the `error` transition of `pollVideoStatus` on a terminal
failure status. -/
def setEncodingFailed (normalized : String) (prev : UploadItem) : UploadItem :=
  { prev with
      stage := UploadStage.error,
      errorMessage := some ("Encoding " ++ normalized) }

/-- Updater of the `creating` transition in `startUploads`. -/
def setCreating (prev : UploadItem) : UploadItem :=
  { prev with stage := UploadStage.creating, statusText := "Creating video…" }

/-- Updater of the `uploading` transition in `startUploads` (records the
server-assigned videoId). -/
def setUploadingStage (videoId : String) (prev : UploadItem) : UploadItem :=
  { prev with
      videoId := some videoId,
      stage := UploadStage.uploading,
      statusText := "Uploading…" }

/-- Updater of the `uploaded` transition in `startUploads` (pins the
progress to 100). -/
def setUploaded (prev : UploadItem) : UploadItem :=
  { prev with
      stage := UploadStage.uploaded,
      statusText := "Uploaded. Starting to poll…",
      progressPercent := 100 }

/-- Updater of the `polling` transition in `startUploads`. -/
def setPolling (prev : UploadItem) : UploadItem :=
  { prev with stage := UploadStage.polling }

/-- Updater of the catch branch of `startUploads`: the caught failure is
rendered by `extractAxiosError`. -/
def setFailed (e : AxiosErrorModel) (prev : UploadItem) : UploadItem :=
  { prev with
      stage := UploadStage.error,
      errorMessage := some (extractAxiosError e),
      statusText := "Error" }

/-- The timer teardown of the terminal branches of `run` inside
`pollVideoStatus`: `const t = pollTimersRef.current.get(itemId); if (t)
window.clearInterval(t); pollTimersRef.current.delete(itemId);`. -/
def cancelTimer (itemId : String) (st : AppState) : AppState :=
  let st' :=
    match mapGet st.timers itemId with
    | some t =>
        if 0 < t then { st with live := clearIntervalL st.live t } else st
    | none => st
  { st' with timers := mapDelete st'.timers itemId }

/-- One completed execution of `run` inside `pollVideoStatus` for `itemId`:
on a response, normalize the status, write `statusText`, and on a terminal
status set the final stage and cancel and discard the item's timer; on a
thrown error, only annotate `statusText`. -/
def pollCheck (itemId : String) (r : PollResult) (st : AppState) : AppState :=
  match r with
  | .fail e =>
      let message := extractAxiosError e
      { st with
          items :=
            updateItem itemId (setStatusText ("Poll error: " ++ message))
              st.items }
  | .ok data =>
      let status := rawStatus data
      let normalized := normalizeStatus status
      let st1 :=
        { st with
            items := updateItem itemId (setStatusText normalized) st.items }
      if doneStatuses.contains (jsToLower normalized) then
        cancelTimer itemId
          { st1 with items := updateItem itemId setDone st1.items }
      else if errorStatuses.contains (jsToLower normalized) then
        cancelTimer itemId
          { st1 with
              items :=
                updateItem itemId (setEncodingFailed normalized) st1.items }
      else st1

/-- The synchronous part of `pollVideoStatus(itemId, videoId)`: cancel any
prior timer for `itemId` (`if (existing) window.clearInterval(existing)`),
schedule a fresh interval handle, and register it for `itemId`.  The
immediately-invoked `run()` suspends at its network await, so its effects are
later `pollCheck` events. -/
def startPoll (itemId : String) (st : AppState) : AppState :=
  let st1 :=
    match mapGet st.timers itemId with
    | some existing =>
        if 0 < existing then { st with live := clearIntervalL st.live existing }
        else st
    | none => st
  let timerId := st1.nextTimer
  { st1 with
      live := st1.live ++ [timerId],
      timers := mapSet st1.timers itemId timerId,
      nextTimer := timerId + 1 }

/-- One item's pipeline inside `startUploads` (the `items.map(async (item) =>
...)` body), with its network outcomes given by `oc`: the `creating` caption,
then either the caught create failure, or the `uploading` transition with
`videoId`, the progress events, and either the caught upload failure or the
`uploaded`/`polling` transitions followed by `pollVideoStatus`. -/
def itemPipeline (itemId : String) (oc : Outcome) (st : AppState) : AppState :=
  let stCreating :=
    { st with items := updateItem itemId setCreating st.items }
  match oc.createRes with
  | .err e =>
      { stCreating with
          items := updateItem itemId (setFailed e) stCreating.items }
  | .ok (videoId, _signedUrl) =>
      let stUploading :=
        { stCreating with
            items :=
              updateItem itemId (setUploadingStage videoId) stCreating.items }
      let stProg :=
        { stUploading with
            items :=
              oc.progress.foldl
                (fun its evt => uploadProgressHandler itemId evt its)
                stUploading.items }
      match oc.uploadRes with
      | .err e =>
          { stProg with
              items := updateItem itemId (setFailed e) stProg.items }
      | .ok _ =>
          let stUploaded :=
            { stProg with
                items := updateItem itemId setUploaded stProg.items }
          let stPolling :=
            { stUploaded with
                items := updateItem itemId setPolling stUploaded.items }
          startPoll itemId stPolling

/-- JavaScript `s.trim()`: strip leading and trailing whitespace, as a map
over the string's characters (kernel-reducible, unlike `String.trim`'s
byte-position recursion). -/
def jsTrim (s : String) : String :=
  ⟨((s.data.dropWhile Char.isWhitespace).reverse.dropWhile
      Char.isWhitespace).reverse⟩

/-- `canUpload` from App.tsx: `token.trim().length > 0 && items.length > 0 &&
!isUploading`. -/
def canUpload (st : AppState) : Bool :=
  decide (0 < (jsTrim st.token).length) && decide (0 < st.items.length)
    && !st.isUploading

/-- `startUploads` from App.tsx: reject when `!canUpload`, set the busy flag,
run every item's pipeline (each item's outcome indexed by its id; the
`Promise.all` of independent per-item pipelines is serialized into a fold,
which is faithful because each pipeline touches only its own item and its own
timer-registry key), then clear the busy flag. -/
def startUploads (oc : String → Outcome) (st : AppState) : AppState :=
  if canUpload st then
    let st1 := { st with isUploading := true }
    let st2 :=
      st1.items.foldl (fun acc it => itemPipeline it.id (oc it.id) acc) st1
    { st2 with isUploading := false }
  else st

/-- `clearAll` from App.tsx: cancel every registered interval, clear the
registry, discard the item list. -/
def clearAll (st : AppState) : AppState :=
  { st with
      live := st.timers.foldl (fun acc p => clearIntervalL acc p.2) st.live,
      timers := [],
      items := [] }

/-- The initial component state: no items, empty registry, no scheduled
intervals, browser interval handles starting at 1. -/
def initialState : AppState :=
  { token := "",
    items := [],
    timers := [],
    live := [],
    nextTimer := 1,
    isUploading := false }

/-- The poll timers registered for item `id` that are still scheduled. -/
def activeTimersFor (st : AppState) (id : String) : List Nat :=
  ((st.timers.filter (fun p => p.1 == id)).map (fun p => p.2)).filter
    (fun t => st.live.contains t)

/-- Registry invariant of the component: the registry is a map (no duplicate
ids), registered handles are pairwise distinct, the scheduled intervals are
exactly the registered handles, and all handles are positive and below the
fresh counter. -/
def TimerInv (st : AppState) : Prop :=
  (st.timers.map Prod.fst).Nodup ∧
  (st.timers.map Prod.snd).Nodup ∧
  st.live = st.timers.map Prod.snd ∧
  (∀ p ∈ st.timers, p.2 < st.nextTimer) ∧
  (∀ p ∈ st.timers, 0 < p.2) ∧
  0 < st.nextTimer

instance instDecidableTimerInv (st : AppState) : Decidable (TimerInv st) := by
  unfold TimerInv
  infer_instance

/-- The events that mutate the component state: replacing the item list on
file selection, running `startUploads`, a completed poll check, restarting a
poll for an item, and `clearAll`. -/
inductive Step : AppState → AppState → Prop where
  | selectFiles (st : AppState) (newItems : List UploadItem) :
      Step st { st with items := newItems }
  | upload (st : AppState) (oc : String → Outcome) :
      Step st (startUploads oc st)
  | poll (st : AppState) (itemId : String) (r : PollResult) :
      Step st (pollCheck itemId r st)
  | repoll (st : AppState) (itemId : String) :
      Step st (startPoll itemId st)
  | clear (st : AppState) : Step st (clearAll st)

/-- States the component can actually be in. -/
def Reachable (st : AppState) : Prop :=
  Relation.ReflTransGen Step initialState st

theorem updateItem_length (id : String) (f : UploadItem → UploadItem)
    (l : List UploadItem) : (updateItem id f l).length = l.length := by
  simp [updateItem]

theorem updateItem_getElem? (id : String) (f : UploadItem → UploadItem)
    (l : List UploadItem) (k : Nat) :
    (updateItem id f l)[k]? =
      (l[k]?).map (fun it => if it.id = id then f it else it) := by
  simp [updateItem]

theorem updateItem_comp (id : String) (f g : UploadItem → UploadItem)
    (hf : ∀ x, (f x).id = x.id) (l : List UploadItem) :
    updateItem id g (updateItem id f l) = updateItem id (fun x => g (f x)) l := by
  simp only [updateItem, List.map_map]
  refine List.map_congr_left ?_
  intro it _
  by_cases h : it.id = id
  · simp [Function.comp, h, hf]
  · simp [Function.comp, h]

theorem updateItem_of_forall_ne (id : String) (f : UploadItem → UploadItem)
    (l : List UploadItem) (h : ∀ it ∈ l, it.id ≠ id) :
    updateItem id f l = l := by
  induction l with
  | nil => rfl
  | cons a l ih =>
      have ha : a.id ≠ id := h a (List.mem_cons_self a l)
      have hl : updateItem id f l = l :=
        ih fun it hit => h it (List.mem_cons_of_mem a hit)
      simp only [updateItem, List.map_cons, if_neg ha] at *
      rw [hl]

theorem updateItem_map_proj {β : Type} (proj : UploadItem → β) (id : String)
    (f : UploadItem → UploadItem) (l : List UploadItem)
    (h : ∀ x, proj (f x) = proj x) :
    (updateItem id f l).map proj = l.map proj := by
  simp only [updateItem, List.map_map]
  refine List.map_congr_left ?_
  intro it _
  by_cases hc : it.id = id <;> simp [Function.comp, hc, h]

theorem mapGet_mem {m : List (String × Nat)} {k : String} {t : Nat}
    (h : mapGet m k = some t) : (k, t) ∈ m := by
  unfold mapGet at h
  cases hf : m.find? (fun p => p.1 == k) with
  | none => rw [hf] at h; simp at h
  | some p =>
      rw [hf] at h
      simp only [Option.map_some'] at h
      have hp := List.find?_some hf
      have hm := List.mem_of_find?_eq_some hf
      obtain ⟨a, b⟩ := p
      simp only [beq_iff_eq] at hp
      cases h
      cases hp
      exact hm

theorem mapGet_eq_none_iff {m : List (String × Nat)} {k : String} :
    mapGet m k = none ↔ ∀ p ∈ m, p.1 ≠ k := by
  unfold mapGet
  simp [List.find?_eq_none]

theorem filter_key_eq_self {m : List (String × Nat)} {k : String}
    (h : ∀ p ∈ m, p.1 ≠ k) : m.filter (fun p => !(p.1 == k)) = m := by
  apply List.filter_eq_self.mpr
  intro p hp
  simpa using h p hp

theorem clearIntervalL_eq_self {live : List Nat} {t : Nat} (h : t ∉ live) :
    clearIntervalL live t = live := by
  refine List.filter_eq_self.mpr fun x hx => ?_
  have hxt : x ≠ t := fun he => h (he ▸ hx)
  simp [hxt]

theorem not_mem_clearIntervalL (live : List Nat) (t : Nat) :
    t ∉ clearIntervalL live t := by
  simp [clearIntervalL, List.mem_filter]

theorem mapGet_cons_of_ne {a : String × Nat} {rest : List (String × Nat)}
    {k : String} (h : a.1 ≠ k) : mapGet (a :: rest) k = mapGet rest k := by
  simp [mapGet, List.find?_cons, h]

theorem mapGet_cons_self {a : String × Nat} {rest : List (String × Nat)} :
    mapGet (a :: rest) a.1 = some a.2 := by
  simp [mapGet, List.find?_cons]

theorem live_filter_eq {m : List (String × Nat)} {k : String} {t : Nat}
    (hk : (m.map Prod.fst).Nodup) (hv : (m.map Prod.snd).Nodup)
    (hget : mapGet m k = some t) :
    (m.map Prod.snd).filter (fun x => !(x == t)) =
      (m.filter (fun p => !(p.1 == k))).map Prod.snd := by
  induction m with
  | nil => simp [mapGet] at hget
  | cons p rest ih =>
      obtain ⟨a, b⟩ := p
      simp only [List.map_cons, List.nodup_cons] at hk hv
      by_cases hak : a = k
      · subst hak
        have hb : b = t := by
          have hself := @mapGet_cons_self (a, b) rest
          rw [hself] at hget
          exact Option.some.inj hget
        subst hb
        have h1 : (rest.map Prod.snd).filter (fun x => !(x == b))
            = rest.map Prod.snd := clearIntervalL_eq_self hv.1
        have h2 : rest.filter (fun p => !(p.1 == a)) = rest :=
          filter_key_eq_self fun q hq hq1 =>
            hk.1 (hq1 ▸ List.mem_map_of_mem Prod.fst hq)
        rw [List.map_cons, List.filter_cons, if_neg (by simp), h1,
          List.filter_cons, if_neg (by simp), h2]
      · have hget' : mapGet rest k = some t := by
          rwa [mapGet_cons_of_ne hak] at hget
        have hbt : b ≠ t := by
          intro hbt
          apply hv.1
          rw [hbt]
          exact List.mem_map_of_mem Prod.snd (mapGet_mem hget')
        rw [List.map_cons, List.filter_cons, if_pos (by simp [hbt]),
          List.filter_cons, if_pos (by simp [hak]), List.map_cons]
        rw [ih hk.2 hv.2 hget']

theorem filter_key_length_le {m : List (String × Nat)}
    (hk : (m.map Prod.fst).Nodup) (k : String) :
    (m.filter (fun p => p.1 == k)).length ≤ 1 := by
  induction m with
  | nil => simp
  | cons p rest ih =>
      simp only [List.map_cons, List.nodup_cons] at hk
      by_cases hpk : p.1 = k
      · rw [List.filter_cons, if_pos (by simp [hpk])]
        have hnil : rest.filter (fun q => q.1 == k) = [] := by
          refine List.filter_eq_nil_iff.mpr fun q hq => ?_
          simp only [beq_iff_eq]
          intro he
          exact hk.1 (hpk ▸ he ▸ List.mem_map_of_mem Prod.fst hq)
        simp [hnil]
      · rw [List.filter_cons, if_neg (by simp [hpk])]
        exact ih hk.2

theorem startPoll_eq_none {st : AppState} {itemId : String}
    (hget : mapGet st.timers itemId = none) :
    startPoll itemId st =
      { st with
          live := st.live ++ [st.nextTimer],
          timers := mapSet st.timers itemId st.nextTimer,
          nextTimer := st.nextTimer + 1 } := by
  simp [startPoll, hget]

theorem startPoll_eq_some {st : AppState} {itemId : String} {t : Nat}
    (hget : mapGet st.timers itemId = some t) (ht : 0 < t) :
    startPoll itemId st =
      { st with
          live := clearIntervalL st.live t ++ [st.nextTimer],
          timers := mapSet st.timers itemId st.nextTimer,
          nextTimer := st.nextTimer + 1 } := by
  simp [startPoll, hget, ht]

theorem TimerInv_mapSet {st : AppState} (itemId : String) (h : TimerInv st) :
    ((mapSet st.timers itemId st.nextTimer).map Prod.fst).Nodup ∧
    ((mapSet st.timers itemId st.nextTimer).map Prod.snd).Nodup ∧
    (mapSet st.timers itemId st.nextTimer).map Prod.snd =
      (st.timers.filter (fun p => !(p.1 == itemId))).map Prod.snd
        ++ [st.nextTimer] ∧
    (∀ p ∈ mapSet st.timers itemId st.nextTimer, p.2 < st.nextTimer + 1) ∧
    (∀ p ∈ mapSet st.timers itemId st.nextTimer, 0 < p.2) := by
  obtain ⟨hk, hv, _, hfresh, hpos, hnt⟩ := h
  have hsubk : ((st.timers.filter (fun p => !(p.1 == itemId))).map Prod.fst).Nodup :=
    List.Nodup.sublist ((List.filter_sublist st.timers).map Prod.fst) hk
  have hsubv : ((st.timers.filter (fun p => !(p.1 == itemId))).map Prod.snd).Nodup :=
    List.Nodup.sublist ((List.filter_sublist st.timers).map Prod.snd) hv
  refine ⟨?_, ?_, ?_, ?_, ?_⟩
  · simp only [mapSet, List.map_append, List.map_cons, List.map_nil]
    rw [List.nodup_append]
    refine ⟨hsubk, List.nodup_singleton _, ?_⟩
    intro x hx
    obtain ⟨q, hq, hq1⟩ := List.mem_map.mp hx
    have := (List.mem_filter.mp hq).2
    simp only [bne_iff_ne, ne_eq] at this
    simp only [List.mem_singleton]
    intro he
    exact absurd (hq1.trans he) (by simpa using this)
  · simp only [mapSet, List.map_append, List.map_cons, List.map_nil]
    rw [List.nodup_append]
    refine ⟨hsubv, List.nodup_singleton _, ?_⟩
    intro x hx
    obtain ⟨q, hq, hq2⟩ := List.mem_map.mp hx
    have hqm := List.mem_of_mem_filter hq
    simp only [List.mem_singleton]
    intro he
    exact absurd (hq2.trans he) (Nat.ne_of_lt (hfresh q hqm))
  · simp [mapSet]
  · intro p hp
    simp only [mapSet, List.mem_append, List.mem_singleton] at hp
    cases hp with
    | inl hmem =>
        exact Nat.lt_succ_of_lt (hfresh p (List.mem_of_mem_filter hmem))
    | inr he => rw [he]; exact Nat.lt_succ_self _
  · intro p hp
    simp only [mapSet, List.mem_append, List.mem_singleton] at hp
    cases hp with
    | inl hmem => exact hpos p (List.mem_of_mem_filter hmem)
    | inr he => rw [he]; exact hnt

theorem TimerInv_startPoll (itemId : String) {st : AppState}
    (h : TimerInv st) : TimerInv (startPoll itemId st) := by
  obtain ⟨mk, mv, meq, mfresh, mpos⟩ := TimerInv_mapSet itemId h
  obtain ⟨hk, hv, hl, hfresh, hpos, hnt⟩ := h
  cases hget : mapGet st.timers itemId with
  | none =>
      rw [startPoll_eq_none hget]
      refine ⟨mk, mv, ?_, mfresh, mpos, Nat.succ_pos _⟩
      rw [meq, hl]
      have hkeys : ∀ p ∈ st.timers, p.1 ≠ itemId := mapGet_eq_none_iff.mp hget
      rw [filter_key_eq_self hkeys]
  | some t =>
      have ht : 0 < t := hpos _ (mapGet_mem hget)
      rw [startPoll_eq_some hget ht]
      refine ⟨mk, mv, ?_, mfresh, mpos, Nat.succ_pos _⟩
      rw [meq]
      show clearIntervalL st.live t ++ [st.nextTimer] = _
      unfold clearIntervalL
      rw [hl, live_filter_eq hk hv hget]

theorem TimerInv_cancelTimer (itemId : String) {st : AppState}
    (h : TimerInv st) : TimerInv (cancelTimer itemId st) := by
  obtain ⟨hk, hv, hl, hfresh, hpos, hnt⟩ := h
  unfold cancelTimer
  cases hget : mapGet st.timers itemId with
  | none =>
      have hkeys : ∀ p ∈ st.timers, p.1 ≠ itemId := mapGet_eq_none_iff.mp hget
      simp only [mapDelete, filter_key_eq_self hkeys]
      exact ⟨hk, hv, hl, hfresh, hpos, hnt⟩
  | some t =>
      have ht : 0 < t := hpos _ (mapGet_mem hget)
      simp only [if_pos ht]
      refine ⟨?_, ?_, ?_, ?_, ?_, hnt⟩
      · exact List.Nodup.sublist ((List.filter_sublist st.timers).map Prod.fst) hk
      · exact List.Nodup.sublist ((List.filter_sublist st.timers).map Prod.snd) hv
      · show clearIntervalL st.live t = _
        unfold clearIntervalL
        rw [hl]
        exact live_filter_eq hk hv hget
      · exact fun p hp => hfresh p (List.mem_of_mem_filter hp)
      · exact fun p hp => hpos p (List.mem_of_mem_filter hp)

theorem TimerInv_pollCheck (itemId : String) (r : PollResult) {st : AppState}
    (h : TimerInv st) : TimerInv (pollCheck itemId r st) := by
  cases r with
  | fail e => exact h
  | ok data =>
      simp only [pollCheck]
      by_cases hdone :
          doneStatuses.contains (jsToLower (normalizeStatus (rawStatus data)))
      · rw [if_pos hdone]
        exact TimerInv_cancelTimer itemId h
      · rw [if_neg hdone]
        by_cases herr :
            errorStatuses.contains (jsToLower (normalizeStatus (rawStatus data)))
        · rw [if_pos herr]
          exact TimerInv_cancelTimer itemId h
        · rw [if_neg herr]
          exact h

theorem fold_clear_nil :
    ∀ (ts : List (String × Nat)) (acc : List Nat),
      (∀ x ∈ acc, x ∈ ts.map Prod.snd) →
      ts.foldl (fun a p => clearIntervalL a p.2) acc = [] := by
  intro ts
  induction ts with
  | nil =>
      intro acc h
      cases acc with
      | nil => rfl
      | cons a l => exact absurd (h a (List.mem_cons_self a l)) (by simp)
  | cons p rest ih =>
      intro acc h
      simp only [List.foldl_cons]
      apply ih
      intro x hx
      have hxm : x ∈ acc := (List.mem_filter.mp hx).1
      have hxa2 : x ≠ p.2 := by
        have hb := (List.mem_filter.mp hx).2
        simpa using hb
      have hmem := h x hxm
      simp only [List.map_cons, List.mem_cons] at hmem
      cases hmem with
      | inl he => exact absurd he hxa2
      | inr hm => exact hm

theorem clearAll_live_nil {st : AppState} (h : TimerInv st) :
    (clearAll st).live = [] := by
  obtain ⟨_, _, hl, _, _, _⟩ := h
  show st.timers.foldl (fun acc p => clearIntervalL acc p.2) st.live = []
  exact fold_clear_nil st.timers st.live (by rw [hl]; exact fun x hx => hx)

theorem TimerInv_clearAll {st : AppState} (h : TimerInv st) :
    TimerInv (clearAll st) := by
  refine ⟨by simp [clearAll], by simp [clearAll], ?_,
    by simp [clearAll], by simp [clearAll], h.2.2.2.2.2⟩
  rw [clearAll_live_nil h]
  simp [clearAll]

theorem TimerInv_itemPipeline (itemId : String) (oc : Outcome) {st : AppState}
    (h : TimerInv st) : TimerInv (itemPipeline itemId oc st) := by
  obtain ⟨cr, prog, ur⟩ := oc
  cases cr with
  | err e => exact h
  | ok v =>
      obtain ⟨vid, su⟩ := v
      cases ur with
      | err e => exact h
      | ok u => exact TimerInv_startPoll itemId h

theorem TimerInv_runAll (oc : String → Outcome) :
    ∀ (l : List UploadItem) {st : AppState}, TimerInv st →
      TimerInv (l.foldl (fun acc it => itemPipeline it.id (oc it.id) acc) st) := by
  intro l
  induction l with
  | nil => intro st h; exact h
  | cons a l ih =>
      intro st h
      exact ih (TimerInv_itemPipeline a.id (oc a.id) h)

theorem TimerInv_startUploads (oc : String → Outcome) {st : AppState}
    (h : TimerInv st) : TimerInv (startUploads oc st) := by
  unfold startUploads
  by_cases hc : canUpload st
  · rw [if_pos hc]
    exact TimerInv_runAll oc _ h
  · rw [if_neg hc]
    exact h

theorem TimerInv_step {s s' : AppState} (hs : Step s s') (h : TimerInv s) :
    TimerInv s' := by
  cases hs with
  | selectFiles newItems => exact h
  | upload oc => exact TimerInv_startUploads oc h
  | poll itemId r => exact TimerInv_pollCheck itemId r h
  | repoll itemId => exact TimerInv_startPoll itemId h
  | clear => exact TimerInv_clearAll h

theorem TimerInv_initial : TimerInv initialState := by
  refine ⟨?_, ?_, ?_, ?_, ?_, ?_⟩ <;> simp [initialState]

theorem TimerInv_reachable {st : AppState} (h : Reachable st) : TimerInv st := by
  induction h with
  | refl => exact TimerInv_initial
  | tail _ hstep ih => exact TimerInv_step hstep ih

theorem activeTimersFor_le_one {st : AppState} (h : TimerInv st)
    (id : String) : (activeTimersFor st id).length ≤ 1 := by
  unfold activeTimersFor
  calc (((st.timers.filter (fun p => p.1 == id)).map (fun p => p.2)).filter
          (fun t => st.live.contains t)).length
      ≤ ((st.timers.filter (fun p => p.1 == id)).map (fun p => p.2)).length :=
        List.length_filter_le _ _
    _ = (st.timers.filter (fun p => p.1 == id)).length := List.length_map _ _
    _ ≤ 1 := filter_key_length_le h.1 id

theorem updateItem_congr (id : String) {f g : UploadItem → UploadItem}
    (h : ∀ x, f x = g x) (l : List UploadItem) :
    updateItem id f l = updateItem id g l := by
  simp only [updateItem]
  refine List.map_congr_left fun it _ => ?_
  by_cases hc : it.id = id <;> simp [hc, h]

theorem updateItem_id_fun (id : String) (l : List UploadItem) :
    updateItem id (fun x => x) l = l := by
  simp [updateItem]

theorem itemProgress_id (evt : ProgressEvent) (q : UploadItem) :
    (itemProgress evt q).id = q.id := by
  obtain ⟨loaded, total⟩ := evt
  cases total with
  | none => rfl
  | some t =>
      show (if t = 0 then q else _).id = q.id
      split <;> rfl

theorem uploadProgressHandler_eq (itemId : String) (evt : ProgressEvent)
    (items : List UploadItem) :
    uploadProgressHandler itemId evt items =
      updateItem itemId (itemProgress evt) items := by
  obtain ⟨loaded, total⟩ := evt
  cases total with
  | none => exact (updateItem_id_fun itemId items).symm
  | some t =>
      show (if t = 0 then items else updateItem itemId
          (fun prev => { prev with progressPercent := jsRound loaded t })
          items) = _
      by_cases h0 : t = 0
      · rw [if_pos h0]
        symm
        calc updateItem itemId (itemProgress ⟨loaded, some t⟩) items
            = updateItem itemId (fun x => x) items :=
              updateItem_congr itemId (fun x => by simp [itemProgress, h0]) items
          _ = items := updateItem_id_fun itemId items
      · rw [if_neg h0]
        exact
          updateItem_congr itemId (fun x => by simp [itemProgress, h0]) items

theorem fold_progress_eq (itemId : String) :
    ∀ (evts : List ProgressEvent) (items : List UploadItem),
      evts.foldl (fun its evt => uploadProgressHandler itemId evt its) items =
        updateItem itemId
          (fun p => evts.foldl (fun q evt => itemProgress evt q) p) items := by
  intro evts
  induction evts with
  | nil => intro items; exact (updateItem_id_fun itemId items).symm
  | cons e rest ih =>
      intro items
      rw [List.foldl_cons, ih, uploadProgressHandler_eq,
        updateItem_comp itemId (itemProgress e) _ (itemProgress_id e)]
      rfl

theorem fold_itemProgress_id (evts : List ProgressEvent) :
    ∀ p : UploadItem,
      (evts.foldl (fun q evt => itemProgress evt q) p).id = p.id := by
  induction evts with
  | nil => intro p; rfl
  | cons e rest ih =>
      intro p
      rw [List.foldl_cons, ih, itemProgress_id]

/-- The net effect of one item's pipeline on that item, as a pure function of
the outcome: the composite of the `updateItem` updaters applied by
`itemPipeline`. -/
def pipelineItemFn (oc : Outcome) (p : UploadItem) : UploadItem :=
  match oc.createRes with
  | .err e => setFailed e (setCreating p)
  | .ok (videoId, _signedUrl) =>
      let pu :=
        oc.progress.foldl (fun q evt => itemProgress evt q)
          (setUploadingStage videoId (setCreating p))
      match oc.uploadRes with
      | .err e => setFailed e pu
      | .ok _ => setPolling (setUploaded pu)

theorem startPoll_items (itemId : String) (st : AppState) :
    (startPoll itemId st).items = st.items := by
  cases hget : mapGet st.timers itemId with
  | none => rw [startPoll_eq_none hget]
  | some t =>
      by_cases ht : 0 < t
      · rw [startPoll_eq_some hget ht]
      · simp [startPoll, hget, ht]

theorem startPoll_isUploading (itemId : String) (st : AppState) :
    (startPoll itemId st).isUploading = st.isUploading := by
  cases hget : mapGet st.timers itemId with
  | none => rw [startPoll_eq_none hget]
  | some t =>
      by_cases ht : 0 < t
      · rw [startPoll_eq_some hget ht]
      · simp [startPoll, hget, ht]

theorem itemPipeline_items (itemId : String) (oc : Outcome) (st : AppState) :
    (itemPipeline itemId oc st).items =
      updateItem itemId (pipelineItemFn oc) st.items := by
  obtain ⟨cr, prog, ur⟩ := oc
  cases cr with
  | err e =>
      show updateItem itemId (setFailed e)
          (updateItem itemId setCreating st.items) = _
      rw [updateItem_comp itemId setCreating (setFailed e) (fun x => rfl)]
      rfl
  | ok v =>
      obtain ⟨vid, su⟩ := v
      cases ur with
      | err e =>
          show updateItem itemId (setFailed e)
              (prog.foldl (fun its evt => uploadProgressHandler itemId evt its)
                (updateItem itemId (setUploadingStage vid)
                  (updateItem itemId setCreating st.items))) = _
          rw [updateItem_comp itemId setCreating (setUploadingStage vid)
            (fun x => rfl)]
          rw [fold_progress_eq]
          rw [updateItem_comp itemId
            (fun x => setUploadingStage vid (setCreating x))
            (fun p => List.foldl (fun q evt => itemProgress evt q) p prog)
            (fun x => rfl)]
          rw [updateItem_comp itemId
            (fun x => List.foldl (fun q evt => itemProgress evt q)
              (setUploadingStage vid (setCreating x)) prog)
            (setFailed e)
            (fun x => fold_itemProgress_id prog _)]
          rfl
      | ok u =>
          show (startPoll itemId _).items = _
          rw [startPoll_items]
          show updateItem itemId setPolling
              (updateItem itemId setUploaded
                (prog.foldl (fun its evt => uploadProgressHandler itemId evt its)
                  (updateItem itemId (setUploadingStage vid)
                    (updateItem itemId setCreating st.items)))) = _
          rw [updateItem_comp itemId setCreating (setUploadingStage vid)
            (fun x => rfl)]
          rw [fold_progress_eq]
          rw [updateItem_comp itemId
            (fun x => setUploadingStage vid (setCreating x))
            (fun p => List.foldl (fun q evt => itemProgress evt q) p prog)
            (fun x => rfl)]
          rw [updateItem_comp itemId
            (fun x => List.foldl (fun q evt => itemProgress evt q)
              (setUploadingStage vid (setCreating x)) prog)
            setUploaded
            (fun x => fold_itemProgress_id prog _)]
          rw [updateItem_comp itemId
            (fun x => setUploaded (List.foldl (fun q evt => itemProgress evt q)
              (setUploadingStage vid (setCreating x)) prog))
            setPolling
            (fun x => fold_itemProgress_id prog _)]
          rfl

theorem itemPipeline_isUploading (itemId : String) (oc : Outcome)
    (st : AppState) :
    (itemPipeline itemId oc st).isUploading = st.isUploading := by
  obtain ⟨cr, prog, ur⟩ := oc
  cases cr with
  | err e => rfl
  | ok v =>
      obtain ⟨vid, su⟩ := v
      cases ur with
      | err e => rfl
      | ok u => exact startPoll_isUploading itemId _

theorem pipelineItemFn_id (oc : Outcome) (p : UploadItem) :
    (pipelineItemFn oc p).id = p.id := by
  obtain ⟨cr, prog, ur⟩ := oc
  cases cr with
  | err e => rfl
  | ok v =>
      obtain ⟨vid, su⟩ := v
      cases ur with
      | err e => exact fold_itemProgress_id prog _
      | ok u => exact fold_itemProgress_id prog _

theorem pipelineItemFn_stage (oc : Outcome) (p : UploadItem) :
    (pipelineItemFn oc p).stage = UploadStage.polling ∨
    (pipelineItemFn oc p).stage = UploadStage.error := by
  obtain ⟨cr, prog, ur⟩ := oc
  cases cr with
  | err e => right; rfl
  | ok v =>
      obtain ⟨vid, su⟩ := v
      cases ur with
      | err e => right; rfl
      | ok u => left; rfl

theorem runAll_items (oc : String → Outcome) :
    ∀ (l : List UploadItem) (st : AppState),
      (l.foldl (fun acc it => itemPipeline it.id (oc it.id) acc) st).items =
        l.foldl
          (fun cur it => updateItem it.id (pipelineItemFn (oc it.id)) cur)
          st.items := by
  intro l
  induction l with
  | nil => intro st; rfl
  | cons a l ih =>
      intro st
      rw [List.foldl_cons, List.foldl_cons, ih, itemPipeline_items]

theorem foldl_updateItem_eq_map (F : String → UploadItem → UploadItem)
    (hF : ∀ i x, (F i x).id = x.id) :
    ∀ (l : List UploadItem) (cur : List UploadItem),
      (l.map (fun it => it.id)).Nodup →
      l.foldl (fun c it => updateItem it.id (F it.id) c) cur =
        cur.map
          (fun x => if x.id ∈ l.map (fun it => it.id) then F x.id x else x) := by
  intro l
  induction l with
  | nil =>
      intro cur _
      simp
  | cons a l ih =>
      intro cur hnd
      simp only [List.map_cons, List.nodup_cons] at hnd
      rw [List.foldl_cons, ih _ hnd.2]
      simp only [updateItem, List.map_map]
      refine List.map_congr_left fun x _ => ?_
      by_cases hxa : x.id = a.id
      · have hnotin : x.id ∉ l.map (fun it => it.id) := hxa ▸ hnd.1
        simp only [Function.comp, if_pos hxa]
        rw [if_neg (by rw [hF a.id x]; exact hnotin)]
        simp only [List.map_cons, List.mem_cons]
        rw [if_pos (Or.inl hxa), hxa]
      · simp only [Function.comp, if_neg hxa]
        simp only [List.map_cons, List.mem_cons]
        by_cases hxl : x.id ∈ l.map (fun it => it.id)
        · rw [if_pos hxl, if_pos (Or.inr hxl)]
        · rw [if_neg hxl, if_neg (by push_neg; exact ⟨hxa, hxl⟩)]

theorem startUploads_items (oc : String → Outcome) (st : AppState)
    (hc : canUpload st = true)
    (hnd : (st.items.map (fun it => it.id)).Nodup) :
    (startUploads oc st).items =
      st.items.map (fun x => pipelineItemFn (oc x.id) x) := by
  unfold startUploads
  rw [if_pos hc]
  show (st.items.foldl (fun acc it => itemPipeline it.id (oc it.id) acc)
      { st with isUploading := true }).items = _
  rw [runAll_items oc st.items { st with isUploading := true }]
  show st.items.foldl _ st.items = _
  rw [foldl_updateItem_eq_map (fun i x => pipelineItemFn (oc i) x)
    (fun i x => pipelineItemFn_id (oc i) x) st.items st.items hnd]
  refine List.map_congr_left fun x hx => ?_
  rw [if_pos (List.mem_map_of_mem (fun it => it.id) hx)]

theorem cancelTimer_items (itemId : String) (st : AppState) :
    (cancelTimer itemId st).items = st.items := by
  cases hget : mapGet st.timers itemId with
  | none => simp [cancelTimer, hget]
  | some t => by_cases ht : 0 < t <;> simp [cancelTimer, hget, ht]

theorem cancelTimer_timers (itemId : String) (st : AppState) :
    (cancelTimer itemId st).timers = mapDelete st.timers itemId := by
  cases hget : mapGet st.timers itemId with
  | none => simp [cancelTimer, hget]
  | some t => by_cases ht : 0 < t <;> simp [cancelTimer, hget, ht]

theorem mapGet_mapDelete_self (m : List (String × Nat)) (k : String) :
    mapGet (mapDelete m k) k = none := by
  apply mapGet_eq_none_iff.mpr
  intro p hp
  have hb := (List.mem_filter.mp hp).2
  simpa using hb

theorem cancelTimer_timers_get (itemId : String) (st : AppState) :
    mapGet (cancelTimer itemId st).timers itemId = none := by
  rw [cancelTimer_timers]
  exact mapGet_mapDelete_self st.timers itemId

theorem cancelTimer_live_of_get {itemId : String} {st : AppState} {t : Nat}
    (hget : mapGet st.timers itemId = some t) (ht : 0 < t) :
    t ∉ (cancelTimer itemId st).live := by
  have hlive : (cancelTimer itemId st).live = clearIntervalL st.live t := by
    simp [cancelTimer, hget, ht]
  rw [hlive]
  exact not_mem_clearIntervalL st.live t

theorem fold_itemProgress_shape (evts : List ProgressEvent) :
    ∀ p : UploadItem, ∃ pc,
      evts.foldl (fun q evt => itemProgress evt q) p =
        { p with progressPercent := pc } := by
  induction evts with
  | nil => intro p; exact ⟨p.progressPercent, rfl⟩
  | cons ev rest ih =>
      intro p
      rw [List.foldl_cons]
      obtain ⟨pc, hpc⟩ := ih (itemProgress ev p)
      refine ⟨pc, ?_⟩
      rw [hpc]
      obtain ⟨loaded, total⟩ := ev
      cases total with
      | none => rfl
      | some t =>
          by_cases h0 : t = 0
          · show ({ (if t = 0 then p else _) with progressPercent := pc } :
                UploadItem) = _
            rw [if_pos h0]
          · show ({ (if t = 0 then p else _) with progressPercent := pc } :
                UploadItem) = _
            rw [if_neg h0]

theorem pipelineItemFn_createErr (e : AxiosErrorModel)
    (prog : List ProgressEvent) (ur : TransportResult Unit) (p : UploadItem) :
    pipelineItemFn ⟨.err e, prog, ur⟩ p =
      { p with
          stage := UploadStage.error,
          statusText := "Error",
          errorMessage := some (extractAxiosError e) } := rfl

theorem pipelineItemFn_uploadErr (vid su : String) (prog : List ProgressEvent)
    (e : AxiosErrorModel) (p : UploadItem) :
    pipelineItemFn ⟨.ok (vid, su), prog, .err e⟩ p =
      { p with
          videoId := some vid,
          stage := UploadStage.error,
          statusText := "Error",
          errorMessage := some (extractAxiosError e),
          progressPercent :=
            (prog.foldl (fun q evt => itemProgress evt q)
              (setUploadingStage vid (setCreating p))).progressPercent } := by
  obtain ⟨pc, hpc⟩ := fold_itemProgress_shape prog (setUploadingStage vid (setCreating p))
  show setFailed e (prog.foldl (fun q evt => itemProgress evt q)
      (setUploadingStage vid (setCreating p))) = _
  rw [hpc]
  rfl

theorem pipelineItemFn_okOk (vid su : String) (prog : List ProgressEvent)
    (u : Unit) (p : UploadItem) :
    pipelineItemFn ⟨.ok (vid, su), prog, .ok u⟩ p =
      { p with
          videoId := some vid,
          stage := UploadStage.polling,
          statusText := "Uploaded. Starting to poll…",
          progressPercent := 100 } := by
  obtain ⟨pc, hpc⟩ := fold_itemProgress_shape prog (setUploadingStage vid (setCreating p))
  show setPolling (setUploaded (prog.foldl (fun q evt => itemProgress evt q)
      (setUploadingStage vid (setCreating p)))) = _
  rw [hpc]
  rfl

theorem extractAxiosError_ne_empty (e : AxiosErrorModel) :
    extractAxiosError e ≠ "" := by
  obtain ⟨resp, req, msg⟩ := e
  cases resp with
  | some pr =>
      obtain ⟨status, data⟩ := pr
      show toString status ++ ": " ++ _ ≠ ""
      intro h
      have hlen := congrArg String.length h
      rw [String.length_append, String.length_append] at hlen
      have h2 : (": " : String).length = 2 := rfl
      have h0 : ("" : String).length = 0 := rfl
      omega
  | none =>
      cases req with
      | true => show "No response from server" ≠ ""; decide
      | false =>
          by_cases hmsg : msg = ""
          · show (if msg = "" then "Unknown error" else msg) ≠ ""
            rw [if_pos hmsg]
            decide
          · show (if msg = "" then "Unknown error" else msg) ≠ ""
            rw [if_neg hmsg]
            exact hmsg

/-- A freshly selected item, as built by the file-selection effect. -/
def sampleItem (i : String) : UploadItem :=
  { id := i,
    title := "clip.mp4",
    progressPercent := 0,
    stage := UploadStage.pending,
    statusText := "Pending",
    videoId := none,
    errorMessage := none }

/-- A small component state with one item polling under an active timer. -/
def sampleState : AppState :=
  { token := "tok",
    items := [{ sampleItem "a" with stage := UploadStage.polling }],
    timers := [("a", 1)],
    live := [1],
    nextTimer := 2,
    isUploading := false }

/-- Claim C9: `updateItem id f` replaces exactly the items whose id equals
`id` by `f` applied to them, preserves the length and order of the list, and
leaves the list entirely unchanged when no item carries that id (e.g. when
the list was cleared while a poll callback was in flight). -/
theorem updateItem_frame_spec (id : String) (f : UploadItem → UploadItem)
    (l : List UploadItem) :
    (updateItem id f l).length = l.length ∧
    (∀ k, ∀ h : k < l.length,
      (l[k].id = id → (updateItem id f l)[k]? = some (f l[k])) ∧
      (l[k].id ≠ id → (updateItem id f l)[k]? = some l[k])) ∧
    ((∀ it ∈ l, it.id ≠ id) → updateItem id f l = l) := by
  refine ⟨updateItem_length id f l, ?_, updateItem_of_forall_ne id f l⟩
  intro k h
  have hk : l[k]? = some l[k] := List.getElem?_eq_getElem h
  constructor
  · intro hid
    rw [updateItem_getElem?, hk]
    simp [hid]
  · intro hid
    rw [updateItem_getElem?, hk]
    simp [hid]

/-- Witness for C9 on a concrete two-item list: the matching item is
replaced, the other is untouched. -/
theorem updateItem_frame_spec_witness :
    ((updateItem "a" setDone [sampleItem "a", sampleItem "b"])[0]? =
      some (setDone (sampleItem "a"))) ∧
    ((updateItem "a" setDone [sampleItem "a", sampleItem "b"])[1]? =
      some (sampleItem "b")) := by
  constructor
  · exact ((updateItem_frame_spec "a" setDone
      [sampleItem "a", sampleItem "b"]).2.1 0 (by decide)).1 (by decide)
  · exact ((updateItem_frame_spec "a" setDone
      [sampleItem "a", sampleItem "b"]).2.1 1 (by decide)).2 (by decide)

/-- Claim C2: a transport failure during a status poll changes no item's
stage (the item stays `polling`); only the polled item's `statusText` is set
to a poll-error annotation, while the timer registry, the scheduled
intervals, the busy flag and the fresh-handle counter are untouched, so the
still-registered interval keeps retrying at the fixed interval with no retry
cap and no escalation to the `error` stage. -/
theorem poll_transport_failure_spec (st : AppState) (itemId : String)
    (e : AxiosErrorModel) :
    (pollCheck itemId (.fail e) st).items =
      updateItem itemId
        (setStatusText ("Poll error: " ++ extractAxiosError e)) st.items ∧
    (pollCheck itemId (.fail e) st).items.map (fun it => it.stage) =
      st.items.map (fun it => it.stage) ∧
    (pollCheck itemId (.fail e) st).timers = st.timers ∧
    (pollCheck itemId (.fail e) st).live = st.live ∧
    (pollCheck itemId (.fail e) st).isUploading = st.isUploading ∧
    (pollCheck itemId (.fail e) st).nextTimer = st.nextTimer := by
  refine ⟨rfl, ?_, rfl, rfl, rfl, rfl⟩
  exact updateItem_map_proj (fun it => it.stage) itemId
    (setStatusText ("Poll error: " ++ extractAxiosError e)) st.items
    (fun x => rfl)

/-- Claim C7: a progress event with a known non-zero total updates the item's
percentage to round(bytesSent / totalBytes * 100), which lies within [0, 100]
(hence equals its clamp) whenever bytesSent does not exceed totalBytes; an
event with an unknown (absent or zero) total fires no update at all. -/
theorem upload_progress_spec (itemId : String) (evt : ProgressEvent)
    (items : List UploadItem) :
    ((evt.total = none ∨ evt.total = some 0) →
      uploadProgressHandler itemId evt items = items) ∧
    (∀ T : Nat, evt.total = some T → 0 < T →
      uploadProgressHandler itemId evt items =
        updateItem itemId
          (fun prev => { prev with progressPercent := jsRound evt.loaded T })
          items ∧
      (evt.loaded ≤ T → jsRound evt.loaded T ≤ 100)) := by
  obtain ⟨loaded, total⟩ := evt
  constructor
  · intro hfalsy
    cases hfalsy with
    | inl hn =>
        have hn2 : total = none := hn
        subst hn2
        rfl
    | inr h0 =>
        have h02 : total = some 0 := h0
        subst h02
        rfl
  · intro T hT hTpos
    have hT2 : total = some T := hT
    subst hT2
    constructor
    · show (if T = 0 then items else _) = _
      rw [if_neg (Nat.pos_iff_ne_zero.mp hTpos)]
    · intro hle
      have hle2 : loaded ≤ T := hle
      show (200 * loaded + T) / (2 * T) ≤ 100
      have h1 : 200 * loaded + T < 101 * (2 * T) := by omega
      have h2 := (Nat.div_lt_iff_lt_mul (by omega : 0 < 2 * T)).mpr h1
      exact Nat.lt_succ_iff.mp h2

/-- Witness for C7: an unknown total fires no update; a 1-of-2-bytes event
stores 50 and a full event would stay within the range. -/
theorem upload_progress_spec_witness :
    uploadProgressHandler "a" ⟨5, none⟩ [sampleItem "a"] = [sampleItem "a"] ∧
    uploadProgressHandler "a" ⟨1, some 2⟩ [sampleItem "a"] =
      updateItem "a" (fun prev => { prev with progressPercent := jsRound 1 2 })
        [sampleItem "a"] ∧
    jsRound 1 2 ≤ 100 := by
  refine ⟨(upload_progress_spec "a" ⟨5, none⟩ [sampleItem "a"]).1 (Or.inl rfl),
    ((upload_progress_spec "a" ⟨1, some 2⟩ [sampleItem "a"]).2 2 rfl
      (by decide)).1,
    ((upload_progress_spec "a" ⟨1, some 2⟩ [sampleItem "a"]).2 2 rfl
      (by decide)).2 (by decide)⟩

/-- Counterexample to C8 as stated: the could-not-send (local) rendering is
not a fixed string — two local failures with different messages render
differently (`err.message || 'Unknown error'`). -/
theorem extractAxiosError_local_not_fixed :
    extractAxiosError { response := none, request := false, message := "boom" }
      = "boom" ∧
    extractAxiosError { response := none, request := false, message := "zap" }
      = "zap" ∧
    ("boom" : String) ≠ "zap" :=
  ⟨rfl, rfl, by decide⟩

/-- Claim C8 (amended): every transport error renders as one human-readable
string; for a non-success HTTP response it is "{status}: {message}" with the
message taken from the body's `message` field, else its `error` field, else
the serialized body; the no-response (network) case is the fixed string
"No response from server"; the could-not-send (local) case renders the
error's own message, with the fixed fallback "Unknown error" only when that
message is empty. -/
theorem extractAxiosError_spec (err : AxiosErrorModel) :
    (∀ status d m, err.response = some (status, some d) → d.message = some m →
      m ≠ "" → extractAxiosError err = toString status ++ ": " ++ m) ∧
    (∀ status d m, err.response = some (status, some d) →
      (d.message = none ∨ d.message = some "") → d.error = some m → m ≠ "" →
      extractAxiosError err = toString status ++ ": " ++ m) ∧
    (∀ status d, err.response = some (status, some d) →
      (d.message = none ∨ d.message = some "") →
      (d.error = none ∨ d.error = some "") → d.serialized ≠ "" →
      extractAxiosError err = toString status ++ ": " ++ d.serialized) ∧
    (err.response = none → err.request = true →
      extractAxiosError err = "No response from server") ∧
    (err.response = none → err.request = false → err.message ≠ "" →
      extractAxiosError err = err.message) ∧
    (err.response = none → err.request = false → err.message = "" →
      extractAxiosError err = "Unknown error") := by
  obtain ⟨resp, req, msg⟩ := err
  refine ⟨?_, ?_, ?_, ?_, ?_, ?_⟩
  · intro status d m hresp hmsg hm
    have hresp2 : resp = some (status, some d) := hresp
    subst hresp2
    show toString status ++ ": " ++ _ = _
    congr 1
    show jsOrStr d.message (jsOrStr d.error
      (if d.serialized = "" then "Request failed" else d.serialized)) = m
    rw [hmsg]
    simp [jsOrStr, hm]
  · intro status d m hresp hmsgf herr hm
    have hresp2 : resp = some (status, some d) := hresp
    subst hresp2
    show toString status ++ ": " ++ _ = _
    congr 1
    have hmsgf2 : jsOrStr d.message (jsOrStr d.error
        (if d.serialized = "" then "Request failed" else d.serialized)) =
        jsOrStr d.error
          (if d.serialized = "" then "Request failed" else d.serialized) := by
      cases hmsgf with
      | inl hn => rw [hn]; rfl
      | inr he => rw [he]; simp [jsOrStr]
    show jsOrStr d.message (jsOrStr d.error
      (if d.serialized = "" then "Request failed" else d.serialized)) = m
    rw [hmsgf2, herr]
    simp [jsOrStr, hm]
  · intro status d hresp hmsgf herrf hser
    have hresp2 : resp = some (status, some d) := hresp
    subst hresp2
    show toString status ++ ": " ++ _ = _
    congr 1
    have hmsgf2 : jsOrStr d.message (jsOrStr d.error
        (if d.serialized = "" then "Request failed" else d.serialized)) =
        jsOrStr d.error
          (if d.serialized = "" then "Request failed" else d.serialized) := by
      cases hmsgf with
      | inl hn => rw [hn]; rfl
      | inr he => rw [he]; simp [jsOrStr]
    show jsOrStr d.message (jsOrStr d.error
      (if d.serialized = "" then "Request failed" else d.serialized)) =
      d.serialized
    rw [hmsgf2]
    have herrf2 : jsOrStr d.error
        (if d.serialized = "" then "Request failed" else d.serialized) =
        if d.serialized = "" then "Request failed" else d.serialized := by
      cases herrf with
      | inl hn => rw [hn]; rfl
      | inr he => rw [he]; simp [jsOrStr]
    rw [herrf2, if_neg hser]
  · intro hresp hreq
    have hresp2 : resp = none := hresp
    subst hresp2
    have hreq2 : req = true := hreq
    subst hreq2
    rfl
  · intro hresp hreq hm
    have hresp2 : resp = none := hresp
    subst hresp2
    have hreq2 : req = false := hreq
    subst hreq2
    have hm2 : msg ≠ "" := hm
    show (if msg = "" then "Unknown error" else msg) = msg
    rw [if_neg hm2]
  · intro hresp hreq hm
    have hresp2 : resp = none := hresp
    subst hresp2
    have hreq2 : req = false := hreq
    subst hreq2
    have hm2 : msg = "" := hm
    show (if msg = "" then "Unknown error" else msg) = "Unknown error"
    rw [if_pos hm2]

/-- Witness for C8 (amended), matching the spec's own scenario: HTTP 401 with
body message "invalid token" renders as "401: invalid token", and the two
no-response/local fallbacks are reproduced. -/
theorem extractAxiosError_spec_witness :
    extractAxiosError
      { response := some (401,
          some { message := some "invalid token", error := none,
                 serialized := "body" }),
        request := true, message := "" } = "401: invalid token" ∧
    extractAxiosError
      { response := none, request := true, message := "" } =
      "No response from server" ∧
    extractAxiosError
      { response := none, request := false, message := "" } =
      "Unknown error" := by
  refine ⟨?_, ?_, ?_⟩
  · have h := (extractAxiosError_spec
      { response := some (401,
          some { message := some "invalid token", error := none,
                 serialized := "body" }),
        request := true, message := "" }).1 401
      { message := some "invalid token", error := none, serialized := "body" }
      "invalid token" rfl rfl (by decide)
    exact h.trans (by decide)
  · exact (extractAxiosError_spec
      { response := none, request := true, message := "" }).2.2.2.1 rfl rfl
  · exact (extractAxiosError_spec
      { response := none, request := false, message := "" }).2.2.2.2.2 rfl rfl
      rfl

/-- Claim C10: a poll check that reports a terminal status (success or
failure vocabulary) deletes the item's entry from the timer registry in the
same step — afterwards the registry holds no binding for that item — and
cancelling an absent or already-cancelled timer is a no-op (both for the
scheduled-interval set and for the registry deletion). -/
theorem terminal_poll_timer_spec (st : AppState) (itemId : String)
    (resp : StatusResponse)
    (hterm :
      doneStatuses.contains (jsToLower (normalizeStatus (rawStatus resp)))
        = true ∨
      errorStatuses.contains (jsToLower (normalizeStatus (rawStatus resp)))
        = true) :
    mapGet (pollCheck itemId (.ok resp) st).timers itemId = none ∧
    itemId ∉ (pollCheck itemId (.ok resp) st).timers.map Prod.fst ∧
    (∀ (live : List Nat) (t : Nat), t ∉ live → clearIntervalL live t = live) ∧
    (∀ (m : List (String × Nat)) (k : String), mapGet m k = none →
      mapDelete m k = m) := by
  have hmain :
      mapGet (pollCheck itemId (.ok resp) st).timers itemId = none := by
    simp only [pollCheck]
    by_cases hdone :
        doneStatuses.contains (jsToLower (normalizeStatus (rawStatus resp)))
    · rw [if_pos hdone]
      exact cancelTimer_timers_get itemId _
    · rw [if_neg hdone]
      have herr :
          errorStatuses.contains (jsToLower (normalizeStatus (rawStatus resp)))
            = true := by
        cases hterm with
        | inl h => exact absurd h hdone
        | inr h => exact h
      rw [if_pos herr]
      exact cancelTimer_timers_get itemId _
  refine ⟨hmain, ?_, ?_, ?_⟩
  · intro hmem
    obtain ⟨p, hp, hpk⟩ := List.mem_map.mp hmem
    exact (mapGet_eq_none_iff.mp hmain) p hp hpk
  · intro live t h
    exact clearIntervalL_eq_self h
  · intro m k h
    exact filter_key_eq_self (mapGet_eq_none_iff.mp h)

/-- Witness for C10: a poll reporting the terminal failure status "failed"
removes the item's registry entry. -/
theorem terminal_poll_timer_spec_witness :
    mapGet (pollCheck "a" (.ok ⟨some "failed", none⟩) sampleState).timers "a"
      = none ∧
    mapGet (pollCheck "a" (.ok ⟨some "failed", none⟩) sampleState).timers "a"
      ≠ some 1 := by
  have h := (terminal_poll_timer_spec sampleState "a" ⟨some "failed", none⟩
    (Or.inr (by decide))).1
  exact ⟨h, by rw [h]; decide⟩

theorem done_error_disjoint (s : String) (hd : s ∈ doneStatuses)
    (he : s ∈ errorStatuses) : False := by
  simp only [doneStatuses, List.mem_cons, List.not_mem_nil, or_false] at hd
  simp only [errorStatuses, List.mem_cons, List.not_mem_nil, or_false] at he
  rcases he with he | he <;> subst he <;>
    rcases hd with hd | hd | hd | hd | hd <;> exact absurd hd (by decide)

/-- Claim C1: a poll check with a response takes the status from the
response's `status` field, falling back to `encodingStatus`, normalizing an
empty or missing value to "processing"; `statusText` is set to the normalized
value; if its lowercasing is in the terminal-success vocabulary the item's
stage becomes `done` and its timer is cancelled and removed from the
registry; if it is in the terminal-failure vocabulary the stage becomes
`error` with an errorMessage embedding the raw status and the timer is
cancelled and removed; otherwise the stage is unchanged and the timer
registry and scheduled intervals are untouched. -/
theorem poll_success_spec (st : AppState) (itemId : String)
    (resp : StatusResponse) (hinv : TimerInv st) :
    ((resp.status = none ∨ resp.status = some "") →
      (resp.encodingStatus = none ∨ resp.encodingStatus = some "") →
      normalizeStatus (rawStatus resp) = "processing") ∧
    (∀ s, resp.status = some s → s ≠ "" →
      normalizeStatus (rawStatus resp) = s) ∧
    (∀ s, (resp.status = none ∨ resp.status = some "") →
      resp.encodingStatus = some s → s ≠ "" →
      normalizeStatus (rawStatus resp) = s) ∧
    (doneStatuses.contains (jsToLower (normalizeStatus (rawStatus resp)))
        = true →
      (pollCheck itemId (.ok resp) st).items =
        updateItem itemId
          (fun prev =>
            { prev with
                statusText := normalizeStatus (rawStatus resp),
                stage := UploadStage.done }) st.items ∧
      mapGet (pollCheck itemId (.ok resp) st).timers itemId = none ∧
      (∀ t, mapGet st.timers itemId = some t →
        t ∉ (pollCheck itemId (.ok resp) st).live)) ∧
    (errorStatuses.contains (jsToLower (normalizeStatus (rawStatus resp)))
        = true →
      (pollCheck itemId (.ok resp) st).items =
        updateItem itemId
          (fun prev =>
            { prev with
                statusText := normalizeStatus (rawStatus resp),
                stage := UploadStage.error,
                errorMessage :=
                  some ("Encoding " ++ normalizeStatus (rawStatus resp)) })
          st.items ∧
      mapGet (pollCheck itemId (.ok resp) st).timers itemId = none ∧
      (∀ t, mapGet st.timers itemId = some t →
        t ∉ (pollCheck itemId (.ok resp) st).live)) ∧
    (doneStatuses.contains (jsToLower (normalizeStatus (rawStatus resp)))
        = false →
      errorStatuses.contains (jsToLower (normalizeStatus (rawStatus resp)))
        = false →
      (pollCheck itemId (.ok resp) st).items =
        updateItem itemId (setStatusText (normalizeStatus (rawStatus resp)))
          st.items ∧
      (pollCheck itemId (.ok resp) st).timers = st.timers ∧
      (pollCheck itemId (.ok resp) st).live = st.live) := by
  refine ⟨?_, ?_, ?_, ?_, ?_, ?_⟩
  · intro h1 h2
    cases h1 with
    | inl ha =>
        cases h2 with
        | inl hb => simp [rawStatus, jsOrStr, normalizeStatus, ha, hb]
        | inr hb => simp [rawStatus, jsOrStr, normalizeStatus, ha, hb]
    | inr ha =>
        cases h2 with
        | inl hb => simp [rawStatus, jsOrStr, normalizeStatus, ha, hb]
        | inr hb => simp [rawStatus, jsOrStr, normalizeStatus, ha, hb]
  · intro s hs hne
    simp [rawStatus, jsOrStr, normalizeStatus, hs, hne]
  · intro s h1 hs hne
    cases h1 with
    | inl ha => simp [rawStatus, jsOrStr, normalizeStatus, ha, hs, hne]
    | inr ha => simp [rawStatus, jsOrStr, normalizeStatus, ha, hs, hne]
  · intro hdone
    refine ⟨?_, ?_, ?_⟩
    · simp only [pollCheck]
      rw [if_pos hdone, cancelTimer_items]
      rw [updateItem_comp itemId
        (setStatusText (normalizeStatus (rawStatus resp))) setDone
        (fun x => rfl)]
      rfl
    · simp only [pollCheck]
      rw [if_pos hdone]
      exact cancelTimer_timers_get itemId _
    · intro t hget
      have ht : 0 < t := hinv.2.2.2.2.1 _ (mapGet_mem hget)
      simp only [pollCheck]
      rw [if_pos hdone]
      exact cancelTimer_live_of_get hget ht
  · intro herr
    have hdone :
        ¬ (doneStatuses.contains (jsToLower (normalizeStatus (rawStatus resp)))
          = true) := by
      intro h
      exact done_error_disjoint _ (by simpa using h) (by simpa using herr)
    refine ⟨?_, ?_, ?_⟩
    · simp only [pollCheck]
      rw [if_neg hdone, if_pos herr, cancelTimer_items]
      rw [updateItem_comp itemId
        (setStatusText (normalizeStatus (rawStatus resp)))
        (setEncodingFailed (normalizeStatus (rawStatus resp)))
        (fun x => rfl)]
      rfl
    · simp only [pollCheck]
      rw [if_neg hdone, if_pos herr]
      exact cancelTimer_timers_get itemId _
    · intro t hget
      have ht : 0 < t := hinv.2.2.2.2.1 _ (mapGet_mem hget)
      simp only [pollCheck]
      rw [if_neg hdone, if_pos herr]
      exact cancelTimer_live_of_get hget ht
  · intro hd he
    have hd' :
        ¬ (doneStatuses.contains (jsToLower (normalizeStatus (rawStatus resp)))
          = true) := by rw [hd]; decide
    have he' :
        ¬ (errorStatuses.contains
            (jsToLower (normalizeStatus (rawStatus resp))) = true) := by
      rw [he]; decide
    refine ⟨?_, ?_, ?_⟩ <;>
      · simp only [pollCheck]
        rw [if_neg hd', if_neg he']

/-- Witness for C1: in the sample polling state, a response with status
"Ready" (terminal success, mixed case) drives the item to `done`, removes
the registry binding, and cancels the scheduled interval. -/
theorem poll_success_spec_witness :
    (pollCheck "a" (.ok ⟨some "Ready", none⟩) sampleState).items =
      updateItem "a"
        (fun prev =>
          { prev with statusText := "Ready", stage := UploadStage.done })
        sampleState.items ∧
    mapGet (pollCheck "a" (.ok ⟨some "Ready", none⟩) sampleState).timers "a"
      = none ∧
    (1 : Nat) ∉ (pollCheck "a" (.ok ⟨some "Ready", none⟩) sampleState).live := by
  have h := (poll_success_spec sampleState "a" ⟨some "Ready", none⟩
    (by decide)).2.2.2.1 (by decide)
  exact ⟨h.1, h.2.1, h.2.2 1 (by decide)⟩

/-- An idle two-item state before any upload was dispatched. -/
def sampleIdle : AppState :=
  { token := "tok",
    items := [sampleItem "a", sampleItem "b"],
    timers := [],
    live := [],
    nextTimer := 1,
    isUploading := false }

/-- Claim C3: a transport failure during the create or upload step drives
the item directly to `error` with a non-empty `errorMessage` rendered from
the failure; on a create failure the item's `videoId` is left untouched,
while after a successful create the failure keeps the already-assigned
`videoId`; no poll timer is started, and every sibling item is unchanged. -/
theorem create_upload_failure_spec (st : AppState) (itemId : String)
    (oc : Outcome) (e : AxiosErrorModel) :
    (oc.createRes = .err e →
      (itemPipeline itemId oc st).items =
        updateItem itemId
          (fun prev =>
            { prev with
                stage := UploadStage.error,
                statusText := "Error",
                errorMessage := some (extractAxiosError e) }) st.items ∧
      (itemPipeline itemId oc st).timers = st.timers ∧
      (itemPipeline itemId oc st).live = st.live ∧
      (∀ k, ∀ h : k < st.items.length, ∃ q,
        (itemPipeline itemId oc st).items[k]? = some q ∧
        q.videoId = st.items[k].videoId)) ∧
    (∀ vid su, oc.createRes = .ok (vid, su) → oc.uploadRes = .err e →
      (itemPipeline itemId oc st).timers = st.timers ∧
      (itemPipeline itemId oc st).live = st.live ∧
      (∀ k, ∀ h : k < st.items.length, st.items[k].id = itemId → ∃ q,
        (itemPipeline itemId oc st).items[k]? = some q ∧
        q.stage = UploadStage.error ∧
        q.errorMessage = some (extractAxiosError e) ∧
        q.statusText = "Error" ∧
        q.videoId = some vid)) ∧
    (∀ k, ∀ h : k < st.items.length, st.items[k].id ≠ itemId →
      (itemPipeline itemId oc st).items[k]? = some st.items[k]) ∧
    extractAxiosError e ≠ "" := by
  obtain ⟨cr, prog, ur⟩ := oc
  refine ⟨?_, ?_, ?_, extractAxiosError_ne_empty e⟩
  · intro hcr
    have hcr2 : cr = .err e := hcr
    subst hcr2
    refine ⟨?_, rfl, rfl, ?_⟩
    · rw [itemPipeline_items]
      exact updateItem_congr itemId
        (fun p => pipelineItemFn_createErr e prog ur p) st.items
    · intro k h
      rw [itemPipeline_items, updateItem_getElem?, List.getElem?_eq_getElem h]
      by_cases hid : st.items[k].id = itemId
      · refine ⟨pipelineItemFn ⟨.err e, prog, ur⟩ st.items[k], ?_, ?_⟩
        · simp [hid]
        · rw [pipelineItemFn_createErr]
      · exact ⟨st.items[k], by simp [hid], rfl⟩
  · intro vid su hcr hur
    have hcr2 : cr = .ok (vid, su) := hcr
    subst hcr2
    have hur2 : ur = .err e := hur
    subst hur2
    refine ⟨rfl, rfl, ?_⟩
    intro k h hid
    rw [itemPipeline_items, updateItem_getElem?, List.getElem?_eq_getElem h]
    refine ⟨pipelineItemFn ⟨.ok (vid, su), prog, .err e⟩ st.items[k],
      by simp [hid], ?_, ?_, ?_, ?_⟩
    · rw [pipelineItemFn_uploadErr]
    · rw [pipelineItemFn_uploadErr]
    · rw [pipelineItemFn_uploadErr]
    · rw [pipelineItemFn_uploadErr]
  · intro k h hne
    rw [itemPipeline_items, updateItem_getElem?, List.getElem?_eq_getElem h]
    simp [hne]

/-- Witness for C3: a network failure during create drives item "a" to
`error` with the fixed no-response rendering while item "b" is untouched. -/
theorem create_upload_failure_spec_witness :
    (itemPipeline "a"
      ⟨.err { response := none, request := true, message := "" }, [], .ok ()⟩
      sampleIdle).items =
      updateItem "a"
        (fun prev =>
          { prev with
              stage := UploadStage.error,
              statusText := "Error",
              errorMessage := some "No response from server" })
        sampleIdle.items ∧
    (itemPipeline "a"
      ⟨.err { response := none, request := true, message := "" }, [], .ok ()⟩
      sampleIdle).items[1]? = some (sampleItem "b") ∧
    ("No response from server" : String) ≠ "" := by
  have h := create_upload_failure_spec sampleIdle "a"
    ⟨.err { response := none, request := true, message := "" }, [], .ok ()⟩
    { response := none, request := true, message := "" }
  exact ⟨(h.1 rfl).1, h.2.2.1 1 (by decide) (by decide), h.2.2.2⟩

theorem jsRound_le_jsRound {l1 l2 : Nat} (T : Nat) (h : l1 ≤ l2) :
    jsRound l1 T ≤ jsRound l2 T :=
  Nat.div_le_div_right (by omega)

theorem scanl_head? {α β : Type} (f : β → α → β) (a : β) (l : List α) :
    (List.scanl f a l).head? = some a := by
  cases l with
  | nil => rfl
  | cons x xs => rfl

theorem itemProgress_known {T : Nat} (hT : 0 < T) (loaded : Nat)
    (p : UploadItem) :
    itemProgress ⟨loaded, some T⟩ p =
      { p with progressPercent := jsRound loaded T } := by
  show (if T = 0 then p else _) = _
  rw [if_neg (Nat.pos_iff_ne_zero.mp hT)]

theorem chain_progress_aux {T : Nat} (hT : 0 < T) :
    ∀ (evts : List ProgressEvent) (p : UploadItem),
      (∀ ev ∈ evts, ev.total = some T) →
      List.Chain' (fun a b => a.loaded ≤ b.loaded) evts →
      (∀ e0 ∈ evts.head?, p.progressPercent ≤ jsRound e0.loaded T) →
      List.Chain' (fun a b => a ≤ b)
        ((evts.scanl (fun q evt => itemProgress evt q) p).map
          (fun q => q.progressPercent)) := by
  intro evts
  induction evts with
  | nil =>
      intro p _ _ _
      simp
  | cons e rest ih =>
      intro p hTot hChain hHead
      have heT : e.total = some T := hTot e (List.mem_cons_self e rest)
      have hstep : itemProgress e p =
          { p with progressPercent := jsRound e.loaded T } := by
        obtain ⟨el, et⟩ := e
        have heT2 : et = some T := heT
        subst heT2
        exact itemProgress_known hT el p
      rw [List.scanl_cons, List.singleton_append, List.map_cons,
        List.chain'_cons']
      constructor
      · intro b hb
        rw [List.head?_map, scanl_head?] at hb
        simp only [Option.map_some', Option.mem_def, Option.some.injEq] at hb
        subst hb
        rw [hstep]
        exact hHead e rfl
      · apply ih (itemProgress e p)
          (fun ev hev => hTot ev (List.mem_cons_of_mem e hev))
          ((List.chain'_cons'.mp hChain).2)
        intro e0 he0
        rw [hstep]
        show jsRound e.loaded T ≤ jsRound e0.loaded T
        refine jsRound_le_jsRound T ?_
        exact (List.chain'_cons'.mp hChain).1 e0 he0

/-- Claim C6: during `uploading`, the stored percentage is non-decreasing
along any run of progress events with a fixed known total and non-decreasing
cumulative byte counts (starting from the fresh item's 0); once the pipeline
completes the upload, `progressPercent` is forced to exactly 100 by the
explicit assignment of the `uploaded` transition (regardless of the last
callback value) and the item proceeds to `polling`; later poll checks never
change any item's percentage. -/
theorem progress_monotone_spec :
    (∀ (it : UploadItem) (evts : List ProgressEvent) (T : Nat),
      it.progressPercent = 0 → 0 < T →
      (∀ ev ∈ evts, ev.total = some T) →
      List.Chain' (fun a b => a.loaded ≤ b.loaded) evts →
      List.Chain' (fun a b => a ≤ b)
        ((evts.scanl (fun q evt => itemProgress evt q) it).map
          (fun q => q.progressPercent))) ∧
    (∀ (st : AppState) (itemId : String) (oc : Outcome) (vid su : String)
        (u : Unit), oc.createRes = .ok (vid, su) → oc.uploadRes = .ok u →
      ∀ k, ∀ h : k < st.items.length, st.items[k].id = itemId → ∃ q,
        (itemPipeline itemId oc st).items[k]? = some q ∧
        q.progressPercent = 100 ∧ q.stage = UploadStage.polling) ∧
    (∀ (st : AppState) (itemId : String) (r : PollResult),
      (pollCheck itemId r st).items.map (fun it => it.progressPercent) =
        st.items.map (fun it => it.progressPercent)) := by
  refine ⟨?_, ?_, ?_⟩
  · intro it evts T h0 hT hTot hChain
    apply chain_progress_aux hT evts it hTot hChain
    intro e0 _
    rw [h0]
    exact Nat.zero_le _
  · intro st itemId oc vid su u hcr hur k h hid
    obtain ⟨cr, prog, ur⟩ := oc
    have hcr2 : cr = .ok (vid, su) := hcr
    subst hcr2
    have hur2 : ur = .ok u := hur
    subst hur2
    rw [itemPipeline_items, updateItem_getElem?, List.getElem?_eq_getElem h]
    refine ⟨pipelineItemFn ⟨.ok (vid, su), prog, .ok u⟩ st.items[k],
      by simp [hid], ?_, ?_⟩
    · rw [pipelineItemFn_okOk]
    · rw [pipelineItemFn_okOk]
  · intro st itemId r
    cases r with
    | fail e =>
        exact updateItem_map_proj (fun it => it.progressPercent) itemId
          (setStatusText ("Poll error: " ++ extractAxiosError e)) st.items
          (fun x => rfl)
    | ok data =>
        simp only [pollCheck]
        by_cases hdone :
            doneStatuses.contains (jsToLower (normalizeStatus (rawStatus data)))
              = true
        · rw [if_pos hdone, cancelTimer_items]
          rw [updateItem_map_proj (fun it => it.progressPercent) itemId
            setDone _ (fun x => rfl)]
          exact updateItem_map_proj (fun it => it.progressPercent) itemId
            (setStatusText (normalizeStatus (rawStatus data))) st.items
            (fun x => rfl)
        · rw [if_neg hdone]
          by_cases herr :
              errorStatuses.contains
                (jsToLower (normalizeStatus (rawStatus data))) = true
          · rw [if_pos herr, cancelTimer_items]
            rw [updateItem_map_proj (fun it => it.progressPercent) itemId
              (setEncodingFailed (normalizeStatus (rawStatus data))) _
              (fun x => rfl)]
            exact updateItem_map_proj (fun it => it.progressPercent) itemId
              (setStatusText (normalizeStatus (rawStatus data))) st.items
              (fun x => rfl)
          · rw [if_neg herr]
            exact updateItem_map_proj (fun it => it.progressPercent) itemId
              (setStatusText (normalizeStatus (rawStatus data))) st.items
              (fun x => rfl)

/-- Witness for C6: two ordered progress events over a 2-byte file yield the
non-decreasing percentages 0, 50, 100, and a successful pipeline pins item
"a" at 100 in `polling`. -/
theorem progress_monotone_spec_witness :
    List.Chain' (fun a b => a ≤ b)
      (([(⟨1, some 2⟩ : ProgressEvent), ⟨2, some 2⟩].scanl
        (fun q evt => itemProgress evt q) (sampleItem "a")).map
        (fun q => q.progressPercent)) ∧
    (∃ q, (itemPipeline "a" ⟨.ok ("v", "s"), [⟨1, some 2⟩], .ok ()⟩
        sampleIdle).items[0]? = some q ∧
      q.progressPercent = 100 ∧ q.stage = UploadStage.polling) := by
  constructor
  · exact progress_monotone_spec.1 (sampleItem "a")
      [⟨1, some 2⟩, ⟨2, some 2⟩] 2 rfl (by decide) (by decide)
      (List.chain'_pair.mpr (by decide))
  · exact progress_monotone_spec.2.1 sampleIdle "a"
      ⟨.ok ("v", "s"), [⟨1, some 2⟩], .ok ()⟩ "v" "s" () rfl rfl 0 (by decide)
      (by decide)

/-- Claim C4: with the preconditions satisfied and distinct item ids,
`startUploads` marks the batch busy, runs every item's pipeline (each item's
result depending only on its own item and outcome), and ends with the busy
flag cleared exactly when every item has reached `polling` or `error` — a
pipeline never touches the busy flag itself, so the flag is cleared once by
the orchestrator, without waiting for polling to terminate; a failing
outcome is absorbed into that item's `error` state and cannot disturb
siblings (their entries of the result are computed from their own outcomes
alone). -/
theorem startUploads_spec (st : AppState) (oc : String → Outcome)
    (hc : canUpload st = true)
    (hnd : (st.items.map (fun it => it.id)).Nodup) :
    (startUploads oc st).isUploading = false ∧
    (startUploads oc st).items.length = st.items.length ∧
    (startUploads oc st).items =
      st.items.map (fun x => pipelineItemFn (oc x.id) x) ∧
    (∀ q ∈ (startUploads oc st).items,
      q.stage = UploadStage.polling ∨ q.stage = UploadStage.error) ∧
    (∀ (itemId : String) (oc' : Outcome) (s : AppState),
      (itemPipeline itemId oc' s).isUploading = s.isUploading) := by
  have hitems := startUploads_items oc st hc hnd
  refine ⟨?_, ?_, hitems, ?_, itemPipeline_isUploading⟩
  · show (startUploads oc st).isUploading = false
    unfold startUploads
    rw [if_pos hc]
  · rw [hitems, List.length_map]
  · intro q hq
    rw [hitems] at hq
    obtain ⟨x, _, rfl⟩ := List.mem_map.mp hq
    exact pipelineItemFn_stage (oc x.id) x

/-- Witness for C4: a two-item batch where item "a" succeeds end-to-end and
item "b" fails its create call; the orchestrator ends un-busy with "a"
polling and "b" in error. -/
theorem startUploads_spec_witness :
    (startUploads
      (fun i =>
        if i = "a" then ⟨.ok ("v", "s"), [], .ok ()⟩
        else ⟨.err { response := none, request := true, message := "" },
          [], .ok ()⟩)
      sampleIdle).isUploading = false ∧
    (startUploads
      (fun i =>
        if i = "a" then ⟨.ok ("v", "s"), [], .ok ()⟩
        else ⟨.err { response := none, request := true, message := "" },
          [], .ok ()⟩)
      sampleIdle).items.length = 2 := by
  refine ⟨(startUploads_spec sampleIdle _ (by decide) (by decide)).1, ?_⟩
  exact (startUploads_spec sampleIdle _ (by decide) (by decide)).2.1

/-- Claim C5: in every reachable state the timer invariant holds and at most
one active poll timer exists per item id; starting a new poll for an id
first cancels the prior scheduled interval for that id; after `clearAll`
zero intervals remain scheduled, the registry is empty and all item state is
discarded. -/
theorem timer_registry_spec :
    (∀ st, Reachable st →
      TimerInv st ∧ ∀ id, (activeTimersFor st id).length ≤ 1) ∧
    (∀ (st : AppState) (itemId : String) (t : Nat), TimerInv st →
      mapGet st.timers itemId = some t →
      t ∉ (startPoll itemId st).live) ∧
    (∀ st : AppState, TimerInv st →
      (clearAll st).live = [] ∧ (clearAll st).timers = [] ∧
      (clearAll st).items = []) := by
  refine ⟨?_, ?_, ?_⟩
  · intro st h
    have hinv := TimerInv_reachable h
    exact ⟨hinv, fun id => activeTimersFor_le_one hinv id⟩
  · intro st itemId t hinv hget
    have ht : 0 < t := hinv.2.2.2.2.1 _ (mapGet_mem hget)
    rw [startPoll_eq_some hget ht]
    show t ∉ clearIntervalL st.live t ++ [st.nextTimer]
    rw [List.mem_append]
    push_neg
    refine ⟨not_mem_clearIntervalL st.live t, ?_⟩
    have hfresh := hinv.2.2.2.1 _ (mapGet_mem hget)
    simp only [List.mem_singleton]
    omega
  · intro st hinv
    exact ⟨clearAll_live_nil hinv, rfl, rfl⟩

/-- Witness for C5: the initial state is reachable and satisfies the
invariant; starting a new poll for "a" in the sample state cancels the old
interval 1; clearing the sample state leaves no intervals, no registry
entries and no items. -/
theorem timer_registry_spec_witness :
    TimerInv initialState ∧
    (1 : Nat) ∉ (startPoll "a" sampleState).live ∧
    (clearAll sampleState).live = [] ∧
    (clearAll sampleState).timers = [] ∧
    (clearAll sampleState).items = [] := by
  refine ⟨(timer_registry_spec.1 initialState Relation.ReflTransGen.refl).1,
    timer_registry_spec.2.1 sampleState "a" 1 (by decide) (by decide),
    (timer_registry_spec.2.2 sampleState (by decide)).1,
    (timer_registry_spec.2.2 sampleState (by decide)).2.1,
    (timer_registry_spec.2.2 sampleState (by decide)).2.2⟩
